import Mathlib

/-
Verification of the mqrun daemon (mqdaemon.py): job intake, bounded-queue
dispatch, heartbeat supervision, and input-file classification.

The embedding models:
  * Python `pathlib.Path` stem/suffix semantics over plain strings;
  * Python dicts (insertion-ordered association lists with in-place
    value overwrite on key collision);
  * `get_files`, `parse_param_file`, `run_maxquant` from mqdaemon.py,
    with the external file system / yaml / json / mqparams.mqrun calls
    passed in as function parameters;
  * the intake loop (`fill_queue`) and worker loop (`worker`) as event-trace
    producing functions over a job-handle oracle that says which external
    job-handle calls raise;
  * the bounded FIFO queue (`queue.Queue(maxsize=MAXQUEUE)`) as a list with
    non-blocking put and FIFO get.
-/

set_option autoImplicit false

/-- Static configuration constant MAXQUEUE from mqdaemon.py. -/
def MAXQUEUE : Nat := 5

/-- Static configuration constant NUM_WORKERS from mqdaemon.py. -/
def NUM_WORKERS : Nat := 5

/-- Static configuration constant BEAT_INTERVAL from mqdaemon.py. -/
def BEAT_INTERVAL : Nat := 2

/-- ASCII lowercasing of one character, the fragment of Python `str.lower`
relevant to file extensions. -/
def lowerChar (c : Char) : Char :=
  if 'A' ≤ c ∧ c ≤ 'Z' then Char.ofNat (c.toNat + 32) else c

/-- Python `str.lower` on ASCII strings. -/
def lowerStr (s : String) : String :=
  String.mk (s.data.map lowerChar)

/-- Index of the last occurrence of a character in a character list
(Python `str.rfind`). -/
def rfindIdx (c : Char) (l : List Char) : Option Nat :=
  match l.reverse.findIdx? (fun x => x = c) with
  | none => none
  | some j => some (l.length - 1 - j)

/-- Python `pathlib.Path.name`: the final path component. -/
def pyName (p : String) : String :=
  match rfindIdx '/' p.data with
  | none => p
  | some i => String.mk (p.data.drop (i + 1))

/-- Python `pathlib.Path.suffix`: the extension of the final component,
including the dot; empty when the last dot is leading or absent. -/
def pySuffix (p : String) : String :=
  let n := (pyName p).data
  match rfindIdx '.' n with
  | none => ""
  | some i => if 0 < i ∧ i < n.length - 1 then String.mk (n.drop i) else ""

/-- Python `pathlib.Path.stem`: the final component without its suffix. -/
def pyStem (p : String) : String :=
  let n := (pyName p).data
  match rfindIdx '.' n with
  | none => String.mk n
  | some i => if 0 < i ∧ i < n.length - 1 then String.mk (n.take i) else String.mk n

/-- A Python dict from strings to strings, as an insertion-ordered
association list with unique keys. -/
abbrev Dict := List (String × String)

/-- Python `d[k] = v`: overwrite in place when the key is present
(keeping its original position), otherwise append. -/
def dinsert (d : Dict) (k v : String) : Dict :=
  if d.any (fun p => p.1 = k) then
    d.map (fun p => if p.1 = k then (k, v) else p)
  else
    d ++ [(k, v)]

/-- The keys of a dict, in insertion order. -/
def dkeys (d : Dict) : List String := d.map Prod.fst

/-- The values of a dict, in insertion order (Python `d.values()`). -/
def dvalues (d : Dict) : List String := d.map Prod.snd

/-- Exceptions raised by the modelled code paths. -/
inductive PyExc where
  | valueError (msg : String)
  | ioError (msg : String)
  | yamlError (msg : String)
  | assertionError
  | otherError (msg : String)
deriving DecidableEq

/-- Python `str(e)` on the modelled exceptions (empty for a bare
`AssertionError`). -/
def PyExc.str : PyExc → String
  | .valueError m => m
  | .ioError m => m
  | .yamlError m => m
  | .assertionError => ""
  | .otherError m => m

instance {ε α : Type} [DecidableEq ε] [DecidableEq α] : DecidableEq (Except ε α) :=
  fun x y =>
    match x, y with
    | .ok a, .ok b =>
        if h : a = b then isTrue (by rw [h])
        else isFalse (by intro hc; cases hc; exact h rfl)
    | .ok _, .error _ => isFalse (by intro hc; cases hc)
    | .error _, .ok _ => isFalse (by intro hc; cases hc)
    | .error e, .error f =>
        if h : e = f then isTrue (by rw [h])
        else isFalse (by intro hc; cases hc; exact h rfl)

/-- Observable events of one job's handling: job-handle calls
(status/heartbeat/terminal reporting), logging, and queue admission. -/
inductive Ev where
  | setStatus (s : String)
  | startBeat (interval : Nat)
  | stopBeat
  | errorStatus (msg : String)
  | successStatus
  | attachOutfiles (o : Nat)
  | enqueue (uuid : String)
  | logInfo (m : String)
  | logWarn (m : String)
  | logError (m : String)
  | logCritical (m : String)
deriving DecidableEq

/-- Accumulator of the classification loop in `get_files`: the three
mappings plus the warnings logged so far. -/
structure FAcc where
  raw : Dict
  fasta : Dict
  param : Dict
  logs : List Ev
deriving DecidableEq

/-- Whether a file has a parameter-file extension:
`file.suffix.lower() in ['.yaml', '.json']`. -/
def isParamExt (f : String) : Bool :=
  lowerStr (pySuffix f) ∈ ([".yaml", ".json"] : List String)

/-- One iteration of the classification loop of `get_files`
(mqdaemon.py lines 33-41). -/
def classify (acc : FAcc) (file : String) : FAcc :=
  if lowerStr (pySuffix file) = ".raw" then
    ⟨dinsert acc.raw (pyStem file) file, acc.fasta, acc.param, acc.logs⟩
  else if lowerStr (pySuffix file) = ".fasta" then
    ⟨acc.raw, dinsert acc.fasta (pyStem file) file, acc.param, acc.logs⟩
  else if isParamExt file then
    ⟨acc.raw, acc.fasta, dinsert acc.param (pyStem file) file, acc.logs⟩
  else
    ⟨acc.raw, acc.fasta, acc.param,
      acc.logs ++ [Ev.logWarn ("Unknown input file: " ++ file)]⟩

/-- The classification loop of `get_files` (mqdaemon.py lines 29-41),
run over all input files from empty mappings. -/
def get_files_acc (infiles : List String) : FAcc :=
  infiles.foldl classify ⟨[], [], [], []⟩

/-- Model of `get_files(log, infiles)` from mqdaemon.py (lines 28-50): classify the
inputs, fail when the parameter-file dict has more than one or zero
entries, otherwise return the single parameter file and the two mappings.
Returns the log entries alongside the result. -/
def get_files (infiles : List String) :
    List Ev × Except PyExc (String × Dict × Dict) :=
  if (get_files_acc infiles).param.length > 1 then
    ((get_files_acc infiles).logs ++ [Ev.logError "Got more than one parameter file"],
      Except.error (PyExc.valueError "Too many parameter files"))
  else if (get_files_acc infiles).param.length = 0 then
    ((get_files_acc infiles).logs ++ [Ev.logError "No parameter file"],
      Except.error (PyExc.valueError "No parameter file"))
  else
    ((get_files_acc infiles).logs,
      Except.ok ((dvalues (get_files_acc infiles).param).headD "",
        (get_files_acc infiles).raw, (get_files_acc infiles).fasta))

/-- Opaque parsed parameter data (the object returned by
`yaml.load` / `json.loads`). -/
abbrev Params := Nat

/-- Model of `parse_param_file(log, param_file)` from mqdaemon.py (lines 53-78).
External effects are parameters: `read` models `param_file.open().read()`
(error = `IOError` message), `yamlLoad` models the `yaml` module (`none`
when the import failed, error = `yaml.YAMLError` message), `jsonLoads`
models `json.loads` (error = `ValueError` message). -/
def parse_param_file (read : String → Except String String)
    (yamlLoad : Option (String → Except String Params))
    (jsonLoads : String → Except String Params)
    (param_file : String) : List Ev × Except PyExc Params :=
  if lowerStr (pySuffix param_file) = ".yaml" then
    match yamlLoad with
    | none =>
        ([Ev.logError "No YAML support"],
          Except.error (PyExc.valueError "No YAML support"))
    | some load =>
        match read param_file with
        | Except.error m =>
            ([Ev.logError "Could not read parameter file"],
              Except.error (PyExc.ioError m))
        | Except.ok contents =>
            match load contents with
            | Except.error m =>
                ([Ev.logError ("Invalid YAML parameter file: " ++ param_file)],
                  Except.error (PyExc.yamlError m))
            | Except.ok params => ([], Except.ok params)
  else if lowerStr (pySuffix param_file) = ".json" then
    match read param_file with
    | Except.error m =>
        ([Ev.logError "Could not read parameter file"],
          Except.error (PyExc.ioError m))
    | Except.ok contents =>
        match jsonLoads contents with
        | Except.error m =>
            ([Ev.logError ("Invalid json parameter file: " ++ param_file)],
              Except.error (PyExc.valueError m))
        | Except.ok params => ([], Except.ok params)
  else
    ([], Except.error PyExc.assertionError)

/-- Model of `run_maxquant(log, infiles, outdir, tmpdir)` from mqdaemon.py
(lines 81-93): classify, parse the parameter file, then invoke
`mqparams.mqrun` (passed in as `mqrun`), logging and re-raising any
failure of the external tool. -/
def run_maxquant {ρ : Type} (read : String → Except String String)
    (yamlLoad : Option (String → Except String Params))
    (jsonLoads : String → Except String Params)
    (mqrun : Params → Dict → Dict → Except PyExc ρ)
    (infiles : List String) : List Ev × Except PyExc ρ :=
  match get_files infiles with
  | (logs1, Except.error e) => (logs1, Except.error e)
  | (logs1, Except.ok (pf, raws, fastas)) =>
    match parse_param_file read yamlLoad jsonLoads pf with
    | (logs2, Except.error e) => (logs1 ++ logs2, Except.error e)
    | (logs2, Except.ok params) =>
      match mqrun params raws fastas with
      | Except.error e =>
          (logs1 ++ logs2 ++
              [Ev.logError ("Could not execute MaxQuant: " ++ e.str)],
            Except.error e)
      | Except.ok result => (logs1 ++ logs2, Except.ok result)

/-- Modelled from the spec: the Job handle produced by the external
listener (`fscall`, a repository module outside the verified core) exposes
status mutation (`task.status`), terminal reporting (`task.error`,
`task.success`), heartbeat start/stop (`task._start_beat`,
`task._stop_beat`), and a scoped heartbeat reactivation (`task.beat`)
acquiring the heartbeat on entry and releasing it on every exit path.
The oracle records, per call, whether that external call raises an
exception (`none` = the call succeeds). -/
structure TaskOracle where
  statusR : String → Option PyExc
  startBeatR : Option PyExc
  stopBeatR : Option PyExc
  beatEnterR : Option PyExc
  errorR : String → Option PyExc
  successR : Option PyExc

/-- The oracle under which every external job-handle call succeeds. -/
def okOracle : TaskOracle :=
  ⟨fun _ => none, none, none, none, fun _ => none, none⟩

/-- The per-job body of `worker` (mqdaemon.py lines 117-129), inside the
outer `try`: mark WORKING, stop the heartbeat, then inside the scoped
heartbeat run the Execution Routine (its outcome is `run`), reporting
success or error. Returns the emitted events and the exception escaping
to the outer boundary, if any. A raising job-handle call does not emit
its event; the scope's release emits `stopBeat` on every exit path once
the scope was entered. -/
def worker_iterE (o : TaskOracle) (run : Except PyExc Nat) :
    List Ev × Option PyExc :=
  match o.statusR "WORKING" with
  | some e => ([], some e)
  | none =>
  match o.stopBeatR with
  | some e => ([Ev.setStatus "WORKING"], some e)
  | none =>
  match o.beatEnterR with
  | some e => ([Ev.setStatus "WORKING", Ev.stopBeat], some e)
  | none =>
    match run with
    | Except.error e =>
      match o.errorR e.str with
      | some e2 =>
          ([Ev.setStatus "WORKING", Ev.stopBeat, Ev.startBeat BEAT_INTERVAL,
            Ev.stopBeat], some e2)
      | none =>
          ([Ev.setStatus "WORKING", Ev.stopBeat, Ev.startBeat BEAT_INTERVAL,
            Ev.errorStatus e.str, Ev.stopBeat], none)
    | Except.ok n =>
      match o.successR with
      | some e2 =>
          ([Ev.setStatus "WORKING", Ev.stopBeat, Ev.startBeat BEAT_INTERVAL,
            Ev.attachOutfiles n, Ev.stopBeat], some e2)
      | none =>
          ([Ev.setStatus "WORKING", Ev.stopBeat, Ev.startBeat BEAT_INTERVAL,
            Ev.attachOutfiles n, Ev.successStatus, Ev.stopBeat], none)

/-- One full worker iteration (mqdaemon.py lines 115-131): the per-job
body with its outer boundary that logs any escaping exception at
critical severity and swallows it. -/
def worker_iter (o : TaskOracle) (run : Except PyExc Nat) : List Ev :=
  match worker_iterE o run with
  | (evs, none) => evs
  | (evs, some e) =>
      evs ++ [Ev.logCritical ("Unknown error in worker thread: " ++ e.str)]

/-- The worker's unbounded loop, restricted to a finite schedule of
dequeued jobs, each given by its handle oracle and its Execution Routine
outcome. The loop always proceeds to the next job. -/
def worker_loop : List (TaskOracle × Except PyExc Nat) → List Ev
  | [] => []
  | j :: rest => worker_iter j.1 j.2 ++ worker_loop rest

/-- The per-job body of `fill_queue` (mqdaemon.py lines 99-109), inside
the outer `try`: mark WAITING, start the heartbeat, log, then attempt a
non-blocking `put_nowait` into the bounded queue `q`; on `queue.Full`
stop the heartbeat and fail the job. Returns emitted events, the new
queue, and the exception escaping to the outer boundary, if any. -/
def fill_iterE (o : TaskOracle) (q : List String) (t : String) :
    List Ev × List String × Option PyExc :=
  match o.statusR "WAITING" with
  | some e => ([], q, some e)
  | none =>
  match o.startBeatR with
  | some e => ([Ev.setStatus "WAITING"], q, some e)
  | none =>
    let evs := [Ev.setStatus "WAITING", Ev.startBeat BEAT_INTERVAL,
      Ev.logInfo ("Add new task to queue: " ++ t),
      Ev.logInfo ("Size of queue is approx " ++ toString q.length)]
    if q.length < MAXQUEUE then
      (evs ++ [Ev.enqueue t], q ++ [t], none)
    else
      match o.stopBeatR with
      | some e => (evs, q, some e)
      | none =>
        match o.errorR "Compute node overloaded" with
        | some e =>
            (evs ++ [Ev.stopBeat,
              Ev.logError ("Queue is full. Can't add task " ++ t)], q, some e)
        | none =>
            (evs ++ [Ev.stopBeat,
              Ev.logError ("Queue is full. Can't add task " ++ t),
              Ev.errorStatus "Compute node overloaded"], q, none)

/-- One full intake iteration (mqdaemon.py lines 97-111): the per-job
body with its outer boundary that logs any escaping exception at
critical severity and swallows it. -/
def fill_iter (o : TaskOracle) (q : List String) (t : String) :
    List Ev × List String :=
  match fill_iterE o q t with
  | (evs, q', none) => (evs, q')
  | (evs, q', some e) =>
      (evs ++ [Ev.logCritical ("Unknown exception in listener thread: " ++ e.str)],
        q')

/-- The intake loop over a finite emission of the Job Stream, threading
the bounded-queue state; a failing job never stops the loop. -/
def fill_loop (o : TaskOracle) : List String → List String → List Ev × List String
  | q, [] => ([], q)
  | q, t :: ts =>
    let r := fill_iter o q t
    let r2 := fill_loop o r.2 ts
    (r.1 ++ r2.1, r2.2)

/-- Heartbeat state transition of one event. -/
def beatUpd (b : Bool) : Ev → Bool
  | Ev.startBeat _ => true
  | Ev.stopBeat => false
  | _ => b

/-- Heartbeat state after a list of events, starting from `init`. -/
def beatActiveFrom (init : Bool) (evs : List Ev) : Bool :=
  evs.foldl beatUpd init

/-- Whether an event reports a terminal status (`task.error` or
`task.success`). -/
def isTerm : Ev → Bool
  | Ev.errorStatus _ => true
  | Ev.successStatus => true
  | _ => false

/-- Checks that every terminal-status event in the list occurs while the
heartbeat is active, tracking the heartbeat state from `b`. -/
def termsDuringBeatOn (b : Bool) : List Ev → Bool
  | [] => true
  | e :: rest => (!(isTerm e) || b) && termsDuringBeatOn (beatUpd b e) rest

/-- Checks that every terminal-status event in the list occurs while the
heartbeat is inactive, tracking the heartbeat state from `b`. -/
def termsDuringBeatOff (b : Bool) : List Ev → Bool
  | [] => true
  | e :: rest => (!(isTerm e) || !b) && termsDuringBeatOff (beatUpd b e) rest

/-- Operations on the shared bounded queue. -/
inductive QOp where
  | put (x : String)
  | get
deriving DecidableEq

/-- State of the bounded queue together with the histories of admitted
and dequeued jobs. -/
structure QTrace where
  q : List String
  enq : List String
  deq : List String
deriving DecidableEq

/-- One queue operation on `queue.Queue(maxsize=MAXQUEUE)`: `put` is the
intake's non-blocking `put_nowait` (rejected without effect when the
queue is full), `get` is a worker's FIFO dequeue (a `get` on an empty
queue suspends, i.e. has no effect in the trace). -/
def qstep (s : QTrace) : QOp → QTrace
  | QOp.put x =>
      if s.q.length < MAXQUEUE then ⟨s.q ++ [x], s.enq ++ [x], s.deq⟩ else s
  | QOp.get =>
      match s.q with
      | [] => s
      | x :: rest => ⟨rest, s.enq, s.deq ++ [x]⟩

/-- The queue trace reached from the empty queue by a finite interleaving
of intake puts and worker gets. -/
def qrun (ops : List QOp) : QTrace :=
  ops.foldl qstep ⟨[], [], []⟩

/-- Extracts the uuid of an admission event. -/
def enqId : Ev → Option String
  | Ev.enqueue u => some u
  | _ => none

/-- Insertion of a key into an ordered key list, mirroring the effect of
`dinsert` on `dkeys`. -/
def keyIns (ks : List String) (s : String) : List String :=
  if s ∈ ks then ks else ks ++ [s]

/-- The number of distinct filename stems among the parameter files of an
input list. -/
def paramStemCount (infiles : List String) : Nat :=
  (((infiles.filter isParamExt).map pyStem).dedup).length

/-- A concrete file-content reader that always succeeds. -/
def cRead : String → Except String String := fun _ => Except.ok ""

/-- A concrete yaml loader that always succeeds. -/
def cYl : String → Except String Params := fun _ => Except.ok 0

/-- A concrete json loader that always succeeds. -/
def cJl : String → Except String Params := fun _ => Except.ok 0

/-- A concrete external-tool invocation that always succeeds. -/
def cMq : Params → Dict → Dict → Except PyExc Nat := fun _ _ _ => Except.ok 42

/-- A concrete external-tool invocation recording the arguments it was
invoked with. -/
def recMq : Params → Dict → Dict → Except PyExc (Params × Dict × Dict) :=
  fun p r fd => Except.ok (p, r, fd)

/-- An Execution Routine that always fails with message "disk full". -/
def dfMq : Params → Dict → Dict → Except PyExc Nat :=
  fun _ _ _ => Except.error (PyExc.otherError "disk full")

/-- A job-handle oracle whose status call raises as soon as the worker
tries to set WORKING. -/
def badO : TaskOracle :=
  ⟨fun s => if s = "WORKING" then some (PyExc.otherError "boom") else none,
    none, none, none, fun _ => none, none⟩

/-- A job-handle oracle whose status call raises when the intake loop
sets WAITING. -/
def badI : TaskOracle :=
  ⟨fun s => if s = "WAITING" then some (PyExc.otherError "io fail") else none,
    none, none, none, fun _ => none, none⟩

theorem any_fst (d : Dict) (k : String) :
    (d.any fun p => p.1 = k) = true ↔ k ∈ dkeys d := by
  simp [List.any_eq_true, dkeys, List.mem_map]

theorem dkeys_dinsert (d : Dict) (k v : String) :
    dkeys (dinsert d k v) = if k ∈ dkeys d then dkeys d else dkeys d ++ [k] := by
  unfold dinsert
  by_cases h : k ∈ dkeys d
  · rw [if_pos ((any_fst d k).mpr h), if_pos h]
    unfold dkeys
    rw [List.map_map]
    apply List.map_congr_left
    intro p _
    by_cases hpk : p.1 = k
    · simp [hpk]
    · simp [hpk]
  · rw [if_neg (fun hc => h ((any_fst d k).mp hc)), if_neg h]
    unfold dkeys
    rw [List.map_append]
    rfl

theorem length_dinsert (d : Dict) (k v : String) :
    (dinsert d k v).length = if k ∈ dkeys d then d.length else d.length + 1 := by
  unfold dinsert
  by_cases h : k ∈ dkeys d
  · rw [if_pos ((any_fst d k).mpr h), if_pos h, List.length_map]
  · rw [if_neg (fun hc => h ((any_fst d k).mp hc)), if_neg h, List.length_append]
    rfl

theorem dinsert_forall {P : String → Prop} (d : Dict) (k v : String)
    (hd : ∀ p ∈ d, P p.2) (hv : P v) : ∀ p ∈ dinsert d k v, P p.2 := by
  unfold dinsert
  intro p hp
  by_cases h : (d.any fun q => q.1 = k) = true
  · rw [if_pos h] at hp
    rcases List.mem_map.mp hp with ⟨q, hq, hqe⟩
    by_cases hqk : q.1 = k
    · rw [← hqe]; simp only [if_pos hqk]; exact hv
    · rw [← hqe]; simp only [if_neg hqk]; exact hd q hq
  · rw [if_neg h] at hp
    rcases List.mem_append.mp hp with h1 | h1
    · exact hd p h1
    · rw [List.mem_singleton.mp h1]; exact hv

theorem isParamExt_not_raw {f : String} (h : isParamExt f = true) :
    ¬ lowerStr (pySuffix f) = ".raw" := by
  intro hc
  rw [isParamExt, hc] at h
  exact absurd h (by decide)

theorem isParamExt_not_fasta {f : String} (h : isParamExt f = true) :
    ¬ lowerStr (pySuffix f) = ".fasta" := by
  intro hc
  rw [isParamExt, hc] at h
  exact absurd h (by decide)

theorem classify_of_param {f : String} (acc : FAcc) (h : isParamExt f = true) :
    classify acc f = ⟨acc.raw, acc.fasta, dinsert acc.param (pyStem f) f, acc.logs⟩ := by
  unfold classify
  rw [if_neg (isParamExt_not_raw h), if_neg (isParamExt_not_fasta h), if_pos h]

theorem classify_param (acc : FAcc) (f : String) :
    (classify acc f).param =
      if isParamExt f then dinsert acc.param (pyStem f) f else acc.param := by
  cases hf : isParamExt f
  · simp only [Bool.false_eq_true, if_false]
    unfold classify
    by_cases h1 : lowerStr (pySuffix f) = ".raw"
    · rw [if_pos h1]
    · rw [if_neg h1]
      by_cases h2 : lowerStr (pySuffix f) = ".fasta"
      · rw [if_pos h2]
      · rw [if_neg h2, if_neg (by rw [hf]; exact Bool.false_ne_true)]
  · simp only [if_true]
    rw [classify_of_param acc hf]

theorem foldl_classify_param (fs : List String) (acc : FAcc) :
    (fs.foldl classify acc).param =
      (fs.filter isParamExt).foldl (fun d f => dinsert d (pyStem f) f) acc.param := by
  induction fs generalizing acc with
  | nil => rfl
  | cons f fs ih =>
    rw [List.foldl_cons, ih, List.filter_cons]
    cases hf : isParamExt f
    · simp only [Bool.false_eq_true, if_false]
      rw [classify_param, if_neg (by rw [hf]; exact Bool.false_ne_true)]
    · simp only [if_true]
      rw [List.foldl_cons, classify_param, if_pos hf]


theorem dkeys_fold_insStem (l : List String) (d : Dict) :
    dkeys (l.foldl (fun d f => dinsert d (pyStem f) f) d) =
      (l.map pyStem).foldl keyIns (dkeys d) := by
  induction l generalizing d with
  | nil => rfl
  | cons f l ih =>
    rw [List.foldl_cons, List.map_cons, List.foldl_cons, ih, dkeys_dinsert]
    rfl

theorem mem_keyIns (ks : List String) (s x : String) :
    x ∈ keyIns ks s ↔ x ∈ ks ∨ x = s := by
  unfold keyIns
  by_cases h : s ∈ ks
  · rw [if_pos h]
    constructor
    · exact Or.inl
    · rintro (hx | rfl)
      · exact hx
      · exact h
  · rw [if_neg h]
    simp [List.mem_append]

theorem nodup_keyIns (ks : List String) (s : String) (h : ks.Nodup) :
    (keyIns ks s).Nodup := by
  unfold keyIns
  by_cases hs : s ∈ ks
  · rw [if_pos hs]; exact h
  · rw [if_neg hs]; simp [List.nodup_append, h, hs]

theorem mem_fold_keyIns (sl : List String) (ks : List String) (x : String) :
    x ∈ sl.foldl keyIns ks ↔ x ∈ ks ∨ x ∈ sl := by
  induction sl generalizing ks with
  | nil => simp
  | cons s sl ih =>
    rw [List.foldl_cons, ih, mem_keyIns]
    simp [List.mem_cons]
    tauto

theorem nodup_fold_keyIns (sl : List String) (ks : List String) (h : ks.Nodup) :
    (sl.foldl keyIns ks).Nodup := by
  induction sl generalizing ks with
  | nil => exact h
  | cons s sl ih => exact ih _ (nodup_keyIns _ _ h)

theorem length_fold_keyIns (sl : List String) :
    (sl.foldl keyIns []).length = sl.dedup.length := by
  have hnd : (sl.foldl keyIns []).Nodup := nodup_fold_keyIns sl [] List.nodup_nil
  have hfs : (sl.foldl keyIns []).toFinset = sl.toFinset := by
    ext x
    simp only [List.mem_toFinset]
    rw [mem_fold_keyIns]
    simp
  calc (sl.foldl keyIns []).length
      = (sl.foldl keyIns []).toFinset.card := (List.toFinset_card_of_nodup hnd).symm
    _ = sl.toFinset.card := by rw [hfs]
    _ = sl.dedup.length := List.card_toFinset sl


theorem get_files_param (infiles : List String) :
    (get_files_acc infiles).param =
      (infiles.filter isParamExt).foldl (fun d f => dinsert d (pyStem f) f) [] :=
  foldl_classify_param infiles _

theorem get_files_param_length (infiles : List String) :
    (get_files_acc infiles).param.length = paramStemCount infiles := by
  rw [get_files_param]
  have h1 : ((infiles.filter isParamExt).foldl (fun d f => dinsert d (pyStem f) f) []).length
      = (dkeys ((infiles.filter isParamExt).foldl (fun d f => dinsert d (pyStem f) f) [])).length := by
    rw [dkeys, List.length_map]
  rw [h1, dkeys_fold_insStem]
  exact length_fold_keyIns _

theorem fold_insStem_forall {P : String → Prop} (l : List String) (d : Dict)
    (hd : ∀ p ∈ d, P p.2) (hl : ∀ f ∈ l, P f) :
    ∀ p ∈ l.foldl (fun d f => dinsert d (pyStem f) f) d, P p.2 := by
  induction l generalizing d with
  | nil => exact hd
  | cons f l ih =>
    rw [List.foldl_cons]
    exact ih _ (dinsert_forall _ _ _ hd (hl f (List.mem_cons_self f l)))
      (fun g hg => hl g (List.mem_cons_of_mem f hg))

theorem param_values_ext (infiles : List String) :
    ∀ p ∈ (get_files_acc infiles).param, isParamExt p.2 = true := by
  rw [get_files_param]
  exact fold_insStem_forall _ [] (by simp)
    (fun f hf => (List.mem_filter.mp hf).2)

theorem fold_insStem_same (l : List String) (s v0 : String)
    (h : ∀ f ∈ l, pyStem f = s) :
    l.foldl (fun d f => dinsert d (pyStem f) f) [(s, v0)] = [(s, l.getLastD v0)] := by
  induction l generalizing v0 with
  | nil => rfl
  | cons f l ih =>
    rw [List.foldl_cons]
    have hf : pyStem f = s := h f (List.mem_cons_self f l)
    rw [hf]
    have hd : dinsert [(s, v0)] s f = [(s, f)] := by
      unfold dinsert
      simp
    rw [hd, ih f (fun g hg => h g (List.mem_cons_of_mem f hg)), List.getLastD_cons]

theorem get_files_ok_param {infiles : List String} {logs : List Ev}
    {pf : String} {r fd : Dict}
    (h : get_files infiles = (logs, Except.ok (pf, r, fd))) :
    isParamExt pf = true := by
  unfold get_files at h
  split at h
  · exact absurd (congrArg Prod.snd h) (by simp)
  · split at h
    · exact absurd (congrArg Prod.snd h) (by simp)
    · have hres := congrArg Prod.snd h
      simp only at hres
      have hpf : pf = (dvalues (get_files_acc infiles).param).headD "" := by
        cases hres
        rfl
      rename_i h1 h2
      have hlen : (get_files_acc infiles).param.length = 1 := by
        omega
      rcases List.length_eq_one.mp hlen with ⟨p, hp⟩
      have hmem : p ∈ (get_files_acc infiles).param := by
        rw [hp]; exact List.mem_singleton_self p
      have := param_values_ext infiles p hmem
      rw [hpf, hp]
      simpa [dvalues] using this

theorem isParamExt_cases {f : String} (h : isParamExt f = true) :
    lowerStr (pySuffix f) = ".yaml" ∨ lowerStr (pySuffix f) = ".json" := by
  simpa [isParamExt] using h

theorem parse_no_assert {pf : String} (h : isParamExt pf = true)
    (read : String → Except String String)
    (yl : Option (String → Except String Params))
    (jl : String → Except String Params) :
    (parse_param_file read yl jl pf).2 ≠ Except.error PyExc.assertionError := by
  unfold parse_param_file
  rcases isParamExt_cases h with h1 | h1
  · rw [if_pos h1]
    cases yl with
    | none => simp
    | some load =>
      cases hr : read pf with
      | error m => simp [hr]
      | ok c =>
        cases hl : load c with
        | error m => simp [hr, hl]
        | ok p => simp [hr, hl]
  · have hy : ¬ lowerStr (pySuffix pf) = ".yaml" := by rw [h1]; decide
    rw [if_neg hy, if_pos h1]
    cases hr : read pf with
    | error m => simp [hr]
    | ok c =>
      cases hj : jl c with
      | error m => simp [hr, hj]
      | ok p => simp [hr, hj]

theorem run_maxquant_of_get_files_error {ρ : Type} {infiles : List String}
    {logs : List Ev} {e : PyExc}
    (read : String → Except String String)
    (yl : Option (String → Except String Params))
    (jl : String → Except String Params)
    (mqrun : Params → Dict → Dict → Except PyExc ρ)
    (h : get_files infiles = (logs, Except.error e)) :
    run_maxquant read yl jl mqrun infiles = (logs, Except.error e) := by
  unfold run_maxquant
  rw [h]

theorem run_maxquant_of_get_files_ok {ρ : Type} {infiles : List String}
    {logs : List Ev} {pf : String} {r fd : Dict}
    (read : String → Except String String)
    (yl : Option (String → Except String Params))
    (jl : String → Except String Params)
    (mqrun : Params → Dict → Dict → Except PyExc ρ)
    (h : get_files infiles = (logs, Except.ok (pf, r, fd))) :
    (run_maxquant read yl jl mqrun infiles).2 =
      match (parse_param_file read yl jl pf).2 with
      | Except.error e => Except.error e
      | Except.ok p => mqrun p r fd := by
  unfold run_maxquant
  rw [h]
  rcases hp : parse_param_file read yl jl pf with ⟨plogs, pres⟩
  cases pres with
  | error e => simp [hp]
  | ok p =>
    cases hm : mqrun p r fd with
    | error e => simp [hp, hm]
    | ok res => simp [hp, hm]

theorem dinsert_nil (k v : String) : dinsert [] k v = [(k, v)] := by
  simp [dinsert]

theorem dedup_length_one {l : List String} (h : l.dedup.length = 1) :
    ∃ a, ∀ x ∈ l, x = a := by
  rcases List.length_eq_one.mp h with ⟨a, ha⟩
  refine ⟨a, fun x hx => ?_⟩
  have hm := List.mem_dedup.mpr hx
  rw [ha] at hm
  exact List.mem_singleton.mp hm






/-- C9: if the YAML library import failed at module load (`yaml is None`),
then for every `.yaml` parameter file (case-insensitive),
`parse_param_file` raises `ValueError` with message "No YAML support"
without attempting to open or read the file (the result is the same for
every reader); JSON parameter files are unaffected by the missing YAML
library (the result does not depend on the yaml module at all). -/
theorem spec_c9 (read : String → Except String String)
    (jl : String → Except String Params) (pf : String) :
    (lowerStr (pySuffix pf) = ".yaml" →
      parse_param_file read none jl pf =
        ([Ev.logError "No YAML support"],
          Except.error (PyExc.valueError "No YAML support")))
    ∧ (lowerStr (pySuffix pf) = ".json" →
      ∀ yl yl' : Option (String → Except String Params),
        parse_param_file read yl jl pf = parse_param_file read yl' jl pf) := by
  constructor
  · intro h1
    unfold parse_param_file
    rw [if_pos h1]
  · intro h1 yl yl'
    have hy : ¬ lowerStr (pySuffix pf) = ".yaml" := by rw [h1]; decide
    unfold parse_param_file
    rw [if_neg hy, if_neg hy]

/-- C9 witness at concrete inputs. -/
theorem spec_c9_witness :
    parse_param_file cRead none cJl "config.yaml" =
      ([Ev.logError "No YAML support"],
        Except.error (PyExc.valueError "No YAML support"))
    ∧ parse_param_file cRead (some cYl) cJl "config.json" =
        parse_param_file cRead none cJl "config.json" :=
  ⟨(spec_c9 cRead cJl "config.yaml").1 (by decide),
    (spec_c9 cRead cJl "config.json").2 (by decide) (some cYl) none⟩

/-- C10: the `assert False` branch of `parse_param_file` is unreachable
when its argument was produced by `get_files`: whenever `get_files`
returns a parameter file, `parse_param_file` on it never raises
`AssertionError`, whatever the file system, yaml and json libraries do. -/
theorem spec_c10 (read : String → Except String String)
    (yl : Option (String → Except String Params))
    (jl : String → Except String Params)
    (infiles : List String) (logs : List Ev) (pf : String) (r fd : Dict)
    (h : get_files infiles = (logs, Except.ok (pf, r, fd))) :
    (parse_param_file read yl jl pf).2 ≠ Except.error PyExc.assertionError :=
  parse_no_assert (get_files_ok_param h) read yl jl

/-- C10 witness at a concrete input list. -/
theorem spec_c10_witness :
    (parse_param_file cRead (some cYl) cJl "config.yaml").2 ≠
      Except.error PyExc.assertionError :=
  spec_c10 cRead (some cYl) cJl ["config.yaml"] [] "config.yaml" [] []
    (by decide)

theorem dinsert_same_key (s v0 v : String) : dinsert [(s, v0)] s v = [(s, v)] := by
  unfold dinsert
  simp

theorem dinsert_of_mem {d : Dict} {k : String} (h : k ∈ dkeys d) (v : String) :
    dinsert d k v = d.map (fun p => if p.1 = k then (k, v) else p) := by
  unfold dinsert
  rw [if_pos ((any_fst d k).mpr h)]

theorem dinsert_of_not_mem {d : Dict} {k : String} (h : ¬ k ∈ dkeys d) (v : String) :
    dinsert d k v = d ++ [(k, v)] := by
  unfold dinsert
  rw [if_neg (fun hc => h ((any_fst d k).mp hc))]

theorem dinsert_dinsert (d : Dict) (k v w : String) :
    dinsert (dinsert d k v) k w = dinsert d k w := by
  have hkeys : k ∈ dkeys (dinsert d k v) := by
    rw [dkeys_dinsert]
    by_cases hk : k ∈ dkeys d
    · rw [if_pos hk]; exact hk
    · rw [if_neg hk]; simp
  rw [dinsert_of_mem hkeys w]
  by_cases hk : k ∈ dkeys d
  · rw [dinsert_of_mem hk v, dinsert_of_mem hk w, List.map_map]
    apply List.map_congr_left
    intro p _
    by_cases hpk : p.1 = k
    · simp [hpk]
    · simp [hpk]
  · rw [dinsert_of_not_mem hk v, dinsert_of_not_mem hk w, List.map_append]
    have hmap : d.map (fun p => if p.1 = k then (k, w) else p) = d := by
      have hpt : ∀ p ∈ d, (if p.1 = k then (k, w) else p) = id p := by
        intro p hp
        have hpk : ¬ p.1 = k := by
          intro hc
          exact hk (List.mem_map.mpr ⟨p, hp, hc⟩)
        rw [if_neg hpk]
        rfl
      rw [List.map_congr_left hpt, List.map_id]
    rw [hmap]
    simp

theorem classify_of_raw {f : String} (acc : FAcc)
    (h : lowerStr (pySuffix f) = ".raw") :
    classify acc f = ⟨dinsert acc.raw (pyStem f) f, acc.fasta, acc.param, acc.logs⟩ := by
  unfold classify
  rw [if_pos h]

theorem classify_of_fasta {f : String} (acc : FAcc)
    (h : lowerStr (pySuffix f) = ".fasta") :
    classify acc f = ⟨acc.raw, dinsert acc.fasta (pyStem f) f, acc.param, acc.logs⟩ := by
  have hr : ¬ lowerStr (pySuffix f) = ".raw" := by rw [h]; decide
  unfold classify
  rw [if_neg hr, if_pos h]

/-- C8: every classification mapping is keyed by filename stem, so when
two input files of the same category share a stem, classifying the later
file overwrites the earlier entry and only the later file's path is kept
— for the raw, reference and parameter mappings alike (classifying the
earlier then the later same-stem file of a category leaves the same
state as classifying the later alone); in particular two parameter files
with the same stem occupy one entry, so they count as one parameter
file: `get_files` does not raise "Too many parameter files" but
succeeds, returning the later of the two, and `run_maxquant`'s outcome
is decided by parsing exactly that later file (with empty raw/reference
mappings). -/
theorem spec_c8 (f g : String) (hf : isParamExt f = true)
    (hg : isParamExt g = true) (hstem : pyStem f = pyStem g) :
    get_files [f, g] = ([], Except.ok (g, [], []))
    ∧ (∀ (ρ : Type) (read : String → Except String String)
        (yl : Option (String → Except String Params))
        (jl : String → Except String Params)
        (mqrun : Params → Dict → Dict → Except PyExc ρ) (e : PyExc),
        (parse_param_file read yl jl g).2 = Except.error e →
        (run_maxquant read yl jl mqrun [f, g]).2 = Except.error e)
    ∧ (∀ (ρ : Type) (read : String → Except String String)
        (yl : Option (String → Except String Params))
        (jl : String → Except String Params)
        (mqrun : Params → Dict → Dict → Except PyExc ρ) (p : Params),
        (parse_param_file read yl jl g).2 = Except.ok p →
        (run_maxquant read yl jl mqrun [f, g]).2 = mqrun p [] [])
    ∧ (∀ (acc : FAcc) (a b : String), lowerStr (pySuffix a) = ".raw" →
        lowerStr (pySuffix b) = ".raw" → pyStem a = pyStem b →
        classify (classify acc a) b = classify acc b)
    ∧ (∀ (acc : FAcc) (a b : String), lowerStr (pySuffix a) = ".fasta" →
        lowerStr (pySuffix b) = ".fasta" → pyStem a = pyStem b →
        classify (classify acc a) b = classify acc b)
    ∧ (∀ (acc : FAcc) (a b : String), isParamExt a = true →
        isParamExt b = true → pyStem a = pyStem b →
        classify (classify acc a) b = classify acc b) := by
  have h1 : classify ⟨[], [], [], []⟩ f = ⟨[], [], [(pyStem f, f)], []⟩ := by
    rw [classify_of_param _ hf, dinsert_nil]
  have h2 : classify ⟨[], [], [(pyStem f, f)], []⟩ g = ⟨[], [], [(pyStem f, g)], []⟩ := by
    rw [classify_of_param _ hg, ← hstem, dinsert_same_key]
  have hacc : get_files_acc [f, g] = ⟨[], [], [(pyStem f, g)], []⟩ := by
    show classify (classify ⟨[], [], [], []⟩ f) g = _
    rw [h1, h2]
  have hgf : get_files [f, g] = ([], Except.ok (g, [], [])) := by
    unfold get_files
    rw [hacc]
    simp [dvalues]
  refine ⟨hgf, ?_, ?_, ?_, ?_, ?_⟩
  · intro ρ read yl jl mqrun e hp
    have hr := run_maxquant_of_get_files_ok read yl jl mqrun hgf
    simp only [hp] at hr
    exact hr
  · intro ρ read yl jl mqrun p hp
    have hr := run_maxquant_of_get_files_ok read yl jl mqrun hgf
    simp only [hp] at hr
    exact hr
  · intro acc a b ha hb hab
    have hi : classify (classify acc a) b =
        ⟨dinsert (dinsert acc.raw (pyStem a) a) (pyStem b) b,
          acc.fasta, acc.param, acc.logs⟩ := by
      rw [classify_of_raw acc ha]
      exact classify_of_raw _ hb
    rw [hi, classify_of_raw acc hb, hab, dinsert_dinsert]
  · intro acc a b ha hb hab
    have hi : classify (classify acc a) b =
        ⟨acc.raw, dinsert (dinsert acc.fasta (pyStem a) a) (pyStem b) b,
          acc.param, acc.logs⟩ := by
      rw [classify_of_fasta acc ha]
      exact classify_of_fasta _ hb
    rw [hi, classify_of_fasta acc hb, hab, dinsert_dinsert]
  · intro acc a b ha hb hab
    have hi : classify (classify acc a) b =
        ⟨acc.raw, acc.fasta,
          dinsert (dinsert acc.param (pyStem a) a) (pyStem b) b, acc.logs⟩ := by
      rw [classify_of_param acc ha]
      exact classify_of_param _ hb
    rw [hi, classify_of_param acc hb, hab, dinsert_dinsert]

/-- C8 witness: `config.yaml` and `config.json` collapse to one entry and
the later file `config.json` is the one parsed; same-stem raw files and
same-stem fasta files likewise keep only the later path. -/
theorem spec_c8_witness :
    get_files ["config.yaml", "config.json"] = ([], Except.ok ("config.json", [], []))
    ∧ (run_maxquant cRead none cJl cMq ["config.yaml", "config.json"]).2 = cMq 0 [] []
    ∧ classify (classify ⟨[], [], [], []⟩ "sample.raw") "sample.RAW" =
        classify ⟨[], [], [], []⟩ "sample.RAW"
    ∧ classify (classify ⟨[], [], [], []⟩ "ref.fasta") "ref.FASTA" =
        classify ⟨[], [], [], []⟩ "ref.FASTA" := by
  have h := spec_c8 "config.yaml" "config.json" (by decide) (by decide) (by decide)
  exact ⟨h.1, h.2.2.1 Nat cRead none cJl cMq 0 (by decide),
    h.2.2.2.1 ⟨[], [], [], []⟩ "sample.raw" "sample.RAW" (by decide) (by decide)
      (by decide),
    h.2.2.2.2.1 ⟨[], [], [], []⟩ "ref.fasta" "ref.FASTA" (by decide) (by decide)
      (by decide)⟩

/-- C6: the scenario `[sampleA.raw, sampleA.fasta, config.yaml]` yields
raw mapping `{sampleA: path}`, reference mapping `{sampleA: path}` and the
single parameter file `config.yaml`; classification is case-insensitive on
the extension (any file whose lowercased suffix is `.raw` goes to the raw
mapping and `.fasta` to the reference mapping, keyed by stem); a file
with an unrecognized extension lands in no mapping and only produces a
warning log entry, never a failure; and the Execution Routine is invoked
with exactly the scenario's mappings. -/
theorem spec_c6 :
    get_files ["sampleA.raw", "sampleA.fasta", "config.yaml"] =
      ([], Except.ok ("config.yaml", [("sampleA", "sampleA.raw")],
        [("sampleA", "sampleA.fasta")]))
    ∧ (∀ (acc : FAcc) (file : String), lowerStr (pySuffix file) = ".raw" →
        classify acc file =
          ⟨dinsert acc.raw (pyStem file) file, acc.fasta, acc.param, acc.logs⟩)
    ∧ (∀ (acc : FAcc) (file : String), lowerStr (pySuffix file) = ".fasta" →
        classify acc file =
          ⟨acc.raw, dinsert acc.fasta (pyStem file) file, acc.param, acc.logs⟩)
    ∧ (∀ (acc : FAcc) (file : String),
        lowerStr (pySuffix file) ∉ ([".raw", ".fasta", ".yaml", ".json"] : List String) →
        classify acc file = ⟨acc.raw, acc.fasta, acc.param,
          acc.logs ++ [Ev.logWarn ("Unknown input file: " ++ file)]⟩)
    ∧ (∀ (ρ : Type) (read : String → Except String String)
        (yl : Option (String → Except String Params))
        (jl : String → Except String Params)
        (mqrun : Params → Dict → Dict → Except PyExc ρ),
        (run_maxquant read yl jl mqrun ["sampleA.raw", "sampleA.fasta", "config.yaml"]).2 =
          match (parse_param_file read yl jl "config.yaml").2 with
          | Except.error e => Except.error e
          | Except.ok p =>
              mqrun p [("sampleA", "sampleA.raw")] [("sampleA", "sampleA.fasta")]) := by
  have hscen : get_files ["sampleA.raw", "sampleA.fasta", "config.yaml"] =
      ([], Except.ok ("config.yaml", [("sampleA", "sampleA.raw")],
        [("sampleA", "sampleA.fasta")])) := by decide
  refine ⟨hscen, ?_, ?_, ?_, ?_⟩
  · intro acc file h
    unfold classify
    rw [if_pos h]
  · intro acc file h
    have hr : ¬ lowerStr (pySuffix file) = ".raw" := by rw [h]; decide
    unfold classify
    rw [if_neg hr, if_pos h]
  · intro acc file h
    have hr : ¬ lowerStr (pySuffix file) = ".raw" := fun hc => h (by rw [hc]; decide)
    have hfa : ¬ lowerStr (pySuffix file) = ".fasta" := fun hc => h (by rw [hc]; decide)
    have hp : ¬ isParamExt file = true := by
      intro hc
      rcases isParamExt_cases hc with hy | hy
      · exact h (by rw [hy]; decide)
      · exact h (by rw [hy]; decide)
    unfold classify
    rw [if_neg hr, if_neg hfa, if_neg hp]
  · intro ρ read yl jl mqrun
    exact run_maxquant_of_get_files_ok read yl jl mqrun hscen

/-- C6 witness: a mixed-case raw file is classified raw, an unknown
extension only warns, and a recording Execution Routine observes exactly
the scenario's mappings. -/
theorem spec_c6_witness :
    classify ⟨[], [], [], []⟩ "Sample.RAW" =
      ⟨dinsert [] (pyStem "Sample.RAW") "Sample.RAW", [], [], []⟩
    ∧ classify ⟨[], [], [], []⟩ "x.tmp" =
        ⟨[], [], [], [Ev.logWarn "Unknown input file: x.tmp"]⟩
    ∧ (run_maxquant cRead (some cYl) cJl recMq
        ["sampleA.raw", "sampleA.fasta", "config.yaml"]).2 =
      Except.ok (0, [("sampleA", "sampleA.raw")], [("sampleA", "sampleA.fasta")]) := by
  refine ⟨spec_c6.2.1 _ "Sample.RAW" (by decide), ?_, ?_⟩
  · have h := spec_c6.2.2.2.1 ⟨[], [], [], []⟩ "x.tmp" (by decide)
    simpa using h
  · have h := spec_c6.2.2.2.2 (Params × Dict × Dict) cRead (some cYl) cJl recMq
    rw [show (parse_param_file cRead (some cYl) cJl "config.yaml").2 = Except.ok 0 from
      by decide] at h
    simpa [recMq] using h

/-- C1 as frozen counts parameter files as files in the input list; the
code counts distinct stems: `[config.yaml, config.json]` holds two
parameter files yet `get_files` succeeds rather than failing. -/
theorem spec_c1_counterexample :
    ¬ (∀ infiles : List String,
        1 < (infiles.filter isParamExt).length →
        ∃ m, (get_files infiles).2 = Except.error (PyExc.valueError m)) := by
  intro h
  rcases h ["config.yaml", "config.json"] (by decide) with ⟨m, hm⟩
  have hok : (get_files ["config.yaml", "config.json"]).2 =
      Except.ok ("config.json", [], []) := by decide
  rw [hok] at hm
  simp at hm

/-- C1 (amended): with the parameter-file count taken as the number of
distinct stems among parameter files (the mapping is stem-keyed), a count
of zero fails with "No parameter file", a count above one fails with
"Too many parameter files", a count of exactly one returns the most
recent parameter file of that stem; and in both failure cases
`run_maxquant` returns the classification error unchanged, for every
reader, parser and tool — so no parsing or execution is attempted. -/
theorem spec_c1 (infiles : List String) :
    (paramStemCount infiles = 0 →
      get_files infiles =
        ((get_files_acc infiles).logs ++ [Ev.logError "No parameter file"],
          Except.error (PyExc.valueError "No parameter file")))
    ∧ (1 < paramStemCount infiles →
      get_files infiles =
        ((get_files_acc infiles).logs ++ [Ev.logError "Got more than one parameter file"],
          Except.error (PyExc.valueError "Too many parameter files")))
    ∧ (paramStemCount infiles = 1 →
      (get_files infiles).2 =
        Except.ok ((infiles.filter isParamExt).getLastD "",
          (get_files_acc infiles).raw, (get_files_acc infiles).fasta))
    ∧ (∀ (ρ : Type) (read : String → Except String String)
        (yl : Option (String → Except String Params))
        (jl : String → Except String Params)
        (mqrun : Params → Dict → Dict → Except PyExc ρ) (logs : List Ev) (e : PyExc),
        get_files infiles = (logs, Except.error e) →
        run_maxquant read yl jl mqrun infiles = (logs, Except.error e)) := by
  have hlen := get_files_param_length infiles
  refine ⟨?_, ?_, ?_, ?_⟩
  · intro h0
    have hl0 : (get_files_acc infiles).param.length = 0 := by rw [hlen]; exact h0
    unfold get_files
    rw [if_neg (by omega), if_pos hl0]
  · intro h1
    have hl1 : (get_files_acc infiles).param.length > 1 := by rw [hlen]; omega
    unfold get_files
    rw [if_pos hl1]
  · intro h1
    have hl1 : (get_files_acc infiles).param.length = 1 := by rw [hlen]; exact h1
    unfold paramStemCount at h1
    have hval : (dvalues (get_files_acc infiles).param).headD "" =
        (infiles.filter isParamExt).getLastD "" := by
      have hps := get_files_param infiles
      rcases dedup_length_one h1 with ⟨s, hs⟩
      cases hps2 : infiles.filter isParamExt with
      | nil =>
        exfalso
        rw [hps2] at h1
        simp at h1
      | cons p rest =>
        have hstem_p : ∀ x ∈ rest, pyStem x = pyStem p := by
          intro x hx
          have hx1 := hs (pyStem x)
            (by rw [hps2]; exact List.mem_map_of_mem _ (List.mem_cons_of_mem p hx))
          have hx2 := hs (pyStem p)
            (by rw [hps2]; exact List.mem_map_of_mem _ (List.mem_cons_self p rest))
          rw [hx1, hx2]
        have hpd : (get_files_acc infiles).param = [(pyStem p, rest.getLastD p)] := by
          rw [hps, hps2, List.foldl_cons, dinsert_nil]
          exact fold_insStem_same rest (pyStem p) p hstem_p
        rw [hpd, List.getLastD_cons]
        rfl
    unfold get_files
    rw [if_neg (by omega), if_neg (by omega), hval]
  · intro ρ read yl jl mqrun logs e h
    exact run_maxquant_of_get_files_error read yl jl mqrun h

/-- C1 witness at the three concrete counts. -/
theorem spec_c1_witness :
    get_files ["data.raw"] =
      ([Ev.logError "No parameter file"],
        Except.error (PyExc.valueError "No parameter file"))
    ∧ get_files ["c1.yaml", "c2.yaml"] =
        ([Ev.logError "Got more than one parameter file"],
          Except.error (PyExc.valueError "Too many parameter files"))
    ∧ (get_files ["config.yaml"]).2 = Except.ok ("config.yaml", [], [])
    ∧ run_maxquant cRead (some cYl) cJl cMq ["data.raw"] =
        ([Ev.logError "No parameter file"],
          Except.error (PyExc.valueError "No parameter file")) := by
  refine ⟨?_, ?_, ?_, ?_⟩
  · have h := (spec_c1 ["data.raw"]).1 (by decide)
    rw [show (get_files_acc ["data.raw"]).logs = ([] : List Ev) from by decide] at h
    simpa using h
  · have h := (spec_c1 ["c1.yaml", "c2.yaml"]).2.1 (by decide)
    rw [show (get_files_acc ["c1.yaml", "c2.yaml"]).logs = ([] : List Ev) from by decide] at h
    simpa using h
  · have h := (spec_c1 ["config.yaml"]).2.2.1 (by decide)
    simpa using h
  · exact (spec_c1 ["data.raw"]).2.2.2 Nat cRead (some cYl) cJl cMq
      [Ev.logError "No parameter file"]
      (PyExc.valueError "No parameter file") (by decide)

theorem worker_iter_of_exc {o : TaskOracle} {run : Except PyExc Nat}
    {evs : List Ev} {e : PyExc} (h : worker_iterE o run = (evs, some e)) :
    worker_iter o run =
      evs ++ [Ev.logCritical ("Unknown error in worker thread: " ++ e.str)] := by
  unfold worker_iter
  rw [h]

theorem worker_iter_of_none {o : TaskOracle} {run : Except PyExc Nat}
    {evs : List Ev} (h : worker_iterE o run = (evs, none)) :
    worker_iter o run = evs := by
  unfold worker_iter
  rw [h]

theorem worker_iterE_shapes (o : TaskOracle) (run : Except PyExc Nat) :
    (∃ e, o.statusR "WORKING" = some e ∧ worker_iterE o run = ([], some e))
    ∨ (∃ e, worker_iterE o run = ([Ev.setStatus "WORKING"], some e))
    ∨ (∃ e, worker_iterE o run = ([Ev.setStatus "WORKING", Ev.stopBeat], some e))
    ∨ (∃ e ex, run = Except.error ex ∧ worker_iterE o run =
        ([Ev.setStatus "WORKING", Ev.stopBeat, Ev.startBeat BEAT_INTERVAL,
          Ev.stopBeat], some e))
    ∨ (∃ ex, run = Except.error ex ∧ worker_iterE o run =
        ([Ev.setStatus "WORKING", Ev.stopBeat, Ev.startBeat BEAT_INTERVAL,
          Ev.errorStatus ex.str, Ev.stopBeat], none))
    ∨ (∃ e n, run = Except.ok n ∧ worker_iterE o run =
        ([Ev.setStatus "WORKING", Ev.stopBeat, Ev.startBeat BEAT_INTERVAL,
          Ev.attachOutfiles n, Ev.stopBeat], some e))
    ∨ (∃ n, run = Except.ok n ∧ worker_iterE o run =
        ([Ev.setStatus "WORKING", Ev.stopBeat, Ev.startBeat BEAT_INTERVAL,
          Ev.attachOutfiles n, Ev.successStatus, Ev.stopBeat], none)) := by
  cases hs : o.statusR "WORKING" with
  | some e => exact Or.inl ⟨e, rfl, by simp [worker_iterE, hs]⟩
  | none =>
    cases hb : o.stopBeatR with
    | some e => exact Or.inr (Or.inl ⟨e, by simp [worker_iterE, hs, hb]⟩)
    | none =>
      cases he : o.beatEnterR with
      | some e => exact Or.inr (Or.inr (Or.inl ⟨e, by simp [worker_iterE, hs, hb, he]⟩))
      | none =>
        cases run with
        | error ex =>
          cases her : o.errorR ex.str with
          | some e2 =>
            exact Or.inr (Or.inr (Or.inr (Or.inl
              ⟨e2, ex, rfl, by simp [worker_iterE, hs, hb, he, her]⟩)))
          | none =>
            exact Or.inr (Or.inr (Or.inr (Or.inr (Or.inl
              ⟨ex, rfl, by simp [worker_iterE, hs, hb, he, her]⟩))))
        | ok n =>
          cases hsu : o.successR with
          | some e2 =>
            exact Or.inr (Or.inr (Or.inr (Or.inr (Or.inr (Or.inl
              ⟨e2, n, rfl, by simp [worker_iterE, hs, hb, he, hsu]⟩)))))
          | none =>
            exact Or.inr (Or.inr (Or.inr (Or.inr (Or.inr (Or.inr
              ⟨n, rfl, by simp [worker_iterE, hs, hb, he, hsu]⟩)))))

/-- C2 as frozen says the scoped heartbeat is stopped before the worker
reports a terminal status; on the code the terminal report happens inside
the scope, while the heartbeat is still active: on a successful job the
terminal status is set with the heartbeat on. -/
theorem spec_c2_counterexample :
    termsDuringBeatOff false (worker_iter okOracle (Except.ok 0)) = false := by
  decide

/-- C2 (amended): the scoped heartbeat around the Execution Routine call
is stopped on every exit path (normal return, failure, or any other
exception) by the end of the per-job handling — whenever the scope was
entered, the heartbeat is inactive afterwards — but the terminal status
is reported while the heartbeat is still active: the scope's release
happens after the terminal report, not before. -/
theorem spec_c2 (o : TaskOracle) (run : Except PyExc Nat) (init : Bool) :
    (Ev.startBeat BEAT_INTERVAL ∈ worker_iter o run →
      beatActiveFrom init (worker_iter o run) = false)
    ∧ termsDuringBeatOn init (worker_iter o run) = true := by
  rcases worker_iterE_shapes o run with
    ⟨e, hs, h⟩ | ⟨e, h⟩ | ⟨e, h⟩ | ⟨e, ex, hr, h⟩ | ⟨ex, hr, h⟩ | ⟨e, n, hr, h⟩ |
    ⟨n, hr, h⟩
  · rw [worker_iter_of_exc h]
    constructor
    · intro hmem
      exact absurd hmem (by simp)
    · simp [termsDuringBeatOn, beatUpd, isTerm]
  · rw [worker_iter_of_exc h]
    constructor
    · intro hmem
      exact absurd hmem (by simp)
    · simp [termsDuringBeatOn, beatUpd, isTerm]
  · rw [worker_iter_of_exc h]
    constructor
    · intro _
      simp [beatActiveFrom, beatUpd]
    · simp [termsDuringBeatOn, beatUpd, isTerm]
  · rw [worker_iter_of_exc h]
    constructor
    · intro _
      simp [beatActiveFrom, beatUpd]
    · simp [termsDuringBeatOn, beatUpd, isTerm]
  · rw [worker_iter_of_none h]
    constructor
    · intro _
      simp [beatActiveFrom, beatUpd]
    · simp [termsDuringBeatOn, beatUpd, isTerm]
  · rw [worker_iter_of_exc h]
    constructor
    · intro _
      simp [beatActiveFrom, beatUpd]
    · simp [termsDuringBeatOn, beatUpd, isTerm]
  · rw [worker_iter_of_none h]
    constructor
    · intro _
      simp [beatActiveFrom, beatUpd]
    · simp [termsDuringBeatOn, beatUpd, isTerm]

/-- C2 witness at a concrete successful job. -/
theorem spec_c2_witness :
    beatActiveFrom false (worker_iter okOracle (Except.ok 0)) = false
    ∧ termsDuringBeatOn false (worker_iter okOracle (Except.ok 0)) = true :=
  ⟨(spec_c2 okOracle (Except.ok 0) false).1 (by decide),
    (spec_c2 okOracle (Except.ok 0) false).2⟩


/-- C5: when the Execution Routine (`run_maxquant`) returns normally, the
worker attaches the output artifacts and reports SUCCESS; when it raises
an error with message m, the worker reports ERROR with exactly m; and the
next job processed by the same worker is handled independently of the
previous one. -/
theorem spec_c5 (read : String → Except String String)
    (yl : Option (String → Except String Params))
    (jl : String → Except String Params)
    (mqrun : Params → Dict → Dict → Except PyExc Nat) (infiles : List String) :
    (∀ n, (run_maxquant read yl jl mqrun infiles).2 = Except.ok n →
      worker_iter okOracle (run_maxquant read yl jl mqrun infiles).2 =
        [Ev.setStatus "WORKING", Ev.stopBeat, Ev.startBeat BEAT_INTERVAL,
          Ev.attachOutfiles n, Ev.successStatus, Ev.stopBeat])
    ∧ (∀ e, (run_maxquant read yl jl mqrun infiles).2 = Except.error e →
      worker_iter okOracle (run_maxquant read yl jl mqrun infiles).2 =
        [Ev.setStatus "WORKING", Ev.stopBeat, Ev.startBeat BEAT_INTERVAL,
          Ev.errorStatus e.str, Ev.stopBeat])
    ∧ (∀ (js : List (TaskOracle × Except PyExc Nat)) (run1 : Except PyExc Nat),
        worker_loop ((okOracle, run1) :: js) =
          worker_iter okOracle run1 ++ worker_loop js) := by
  refine ⟨?_, ?_, ?_⟩
  · intro n h
    rw [h]
    rfl
  · intro e h
    rw [h]
    rfl
  · intro js run1
    rfl

/-- C5 witness: a concrete successful run and a concrete "disk full"
failure. -/
theorem spec_c5_witness :
    worker_iter okOracle (run_maxquant cRead (some cYl) cJl cMq
        ["sampleA.raw", "sampleA.fasta", "config.yaml"]).2 =
      [Ev.setStatus "WORKING", Ev.stopBeat, Ev.startBeat BEAT_INTERVAL,
        Ev.attachOutfiles 42, Ev.successStatus, Ev.stopBeat]
    ∧ worker_iter okOracle (run_maxquant cRead (some cYl) cJl dfMq
        ["sampleA.raw", "sampleA.fasta", "config.yaml"]).2 =
      [Ev.setStatus "WORKING", Ev.stopBeat, Ev.startBeat BEAT_INTERVAL,
        Ev.errorStatus "disk full", Ev.stopBeat] :=
  ⟨(spec_c5 cRead (some cYl) cJl cMq
      ["sampleA.raw", "sampleA.fasta", "config.yaml"]).1 42 (by decide),
    (spec_c5 cRead (some cYl) cJl dfMq
      ["sampleA.raw", "sampleA.fasta", "config.yaml"]).2.1
      (PyExc.otherError "disk full") (by decide)⟩

theorem fill_iter_of_exc {o : TaskOracle} {q : List String} {t : String}
    {evs : List Ev} {q' : List String} {e : PyExc}
    (h : fill_iterE o q t = (evs, q', some e)) :
    fill_iter o q t =
      (evs ++ [Ev.logCritical ("Unknown exception in listener thread: " ++ e.str)],
        q') := by
  unfold fill_iter
  rw [h]

theorem fill_iterE_full (q : List String) (t : String)
    (hq : MAXQUEUE ≤ q.length) :
    fill_iterE okOracle q t =
      ([Ev.setStatus "WAITING", Ev.startBeat BEAT_INTERVAL,
        Ev.logInfo ("Add new task to queue: " ++ t),
        Ev.logInfo ("Size of queue is approx " ++ toString q.length),
        Ev.stopBeat, Ev.logError ("Queue is full. Can't add task " ++ t),
        Ev.errorStatus "Compute node overloaded"], q, none) := by
  have hfull : ¬ q.length < MAXQUEUE := by omega
  simp [fill_iterE, okOracle, hfull]

/-- C3: a job whose admission is attempted while the bounded queue is
full is rejected without effect on the queue: the iteration completes
(no blocking), the heartbeat ends inactive, the status becomes ERROR with
exactly "Compute node overloaded", the job never transitions through
WORKING nor SUCCESS, and the intake loop proceeds to the next job with
the queue unchanged. -/
theorem spec_c3 (q : List String) (t : String) (hq : MAXQUEUE ≤ q.length) :
    fill_iter okOracle q t =
      ([Ev.setStatus "WAITING", Ev.startBeat BEAT_INTERVAL,
        Ev.logInfo ("Add new task to queue: " ++ t),
        Ev.logInfo ("Size of queue is approx " ++ toString q.length),
        Ev.stopBeat, Ev.logError ("Queue is full. Can't add task " ++ t),
        Ev.errorStatus "Compute node overloaded"], q)
    ∧ (∀ init, beatActiveFrom init (fill_iter okOracle q t).1 = false)
    ∧ Ev.setStatus "WORKING" ∉ (fill_iter okOracle q t).1
    ∧ Ev.successStatus ∉ (fill_iter okOracle q t).1
    ∧ (∀ ts, fill_loop okOracle q (t :: ts) =
        ((fill_iter okOracle q t).1 ++ (fill_loop okOracle q ts).1,
          (fill_loop okOracle q ts).2)) := by
  have h1 : fill_iter okOracle q t =
      ([Ev.setStatus "WAITING", Ev.startBeat BEAT_INTERVAL,
        Ev.logInfo ("Add new task to queue: " ++ t),
        Ev.logInfo ("Size of queue is approx " ++ toString q.length),
        Ev.stopBeat, Ev.logError ("Queue is full. Can't add task " ++ t),
        Ev.errorStatus "Compute node overloaded"], q) := by
    unfold fill_iter
    rw [fill_iterE_full q t hq]
  refine ⟨h1, ?_, ?_, ?_, ?_⟩
  · intro init
    rw [h1]
    simp [beatActiveFrom, beatUpd]
  · rw [h1]
    simp
  · rw [h1]
    simp
  · intro ts
    show (let r := fill_iter okOracle q t
          let r2 := fill_loop okOracle r.2 ts
          (r.1 ++ r2.1, r2.2)) = _
    rw [h1]

/-- C3 witness at a concrete full queue. -/
theorem spec_c3_witness :
    fill_iter okOracle ["a", "b", "c", "d", "e"] "f" =
      ([Ev.setStatus "WAITING", Ev.startBeat BEAT_INTERVAL,
        Ev.logInfo "Add new task to queue: f",
        Ev.logInfo "Size of queue is approx 5",
        Ev.stopBeat, Ev.logError "Queue is full. Can't add task f",
        Ev.errorStatus "Compute node overloaded"], ["a", "b", "c", "d", "e"])
    ∧ Ev.setStatus "WORKING" ∉ (fill_iter okOracle ["a", "b", "c", "d", "e"] "f").1 := by
  have h := spec_c3 ["a", "b", "c", "d", "e"] "f" (by decide)
  exact ⟨h.1, h.2.2.1⟩


/-- C7 as frozen says a worker job hit by an unexpected exception is left
in WORKING; when the exception comes from the initial status call itself,
the exception escapes but the WORKING status was never set. -/
theorem spec_c7_counterexample :
    (worker_iterE badO (Except.ok 0)).2 = some (PyExc.otherError "boom")
    ∧ Ev.setStatus "WORKING" ∉ worker_iter badO (Except.ok 0) := by
  decide

/-- C7 (amended): any unexpected exception escaping the per-job handling
in the intake loop or in a worker is caught at that loop's outer
boundary, logged at critical severity, and swallowed, and the loop
proceeds to the next job; in the worker case no terminal status is ever
set for such a job, and the job is left in WORKING whenever the exception
escapes after the WORKING status call succeeded (an exception from that
first status call leaves the job without the WORKING status). -/
theorem spec_c7 (o : TaskOracle) (run : Except PyExc Nat) (q : List String)
    (t : String) :
    (∀ evs e, worker_iterE o run = (evs, some e) →
      worker_iter o run =
        evs ++ [Ev.logCritical ("Unknown error in worker thread: " ++ e.str)]
      ∧ (∀ m, Ev.errorStatus m ∉ evs) ∧ Ev.successStatus ∉ evs
      ∧ (o.statusR "WORKING" = none → Ev.setStatus "WORKING" ∈ evs))
    ∧ (∀ js, worker_loop ((o, run) :: js) = worker_iter o run ++ worker_loop js)
    ∧ (∀ evs q' e, fill_iterE o q t = (evs, q', some e) →
      fill_iter o q t =
        (evs ++ [Ev.logCritical ("Unknown exception in listener thread: " ++ e.str)],
          q'))
    ∧ (∀ ts, (fill_loop o q (t :: ts)).1 =
        (fill_iter o q t).1 ++ (fill_loop o (fill_iter o q t).2 ts).1) := by
  refine ⟨?_, ?_, ?_, ?_⟩
  · intro evs e h
    rcases worker_iterE_shapes o run with
      ⟨e1, hs, h1⟩ | ⟨e1, h1⟩ | ⟨e1, h1⟩ | ⟨e1, ex, hr, h1⟩ | ⟨ex, hr, h1⟩ |
      ⟨e1, n, hr, h1⟩ | ⟨n, hr, h1⟩
    · rw [h1] at h
      obtain ⟨rfl, rfl⟩ : evs = [] ∧ e = e1 := by
        constructor
        · exact (congrArg Prod.fst h).symm
        · have := congrArg Prod.snd h
          simpa using this.symm
      exact ⟨worker_iter_of_exc h1, by simp, by simp, fun hc => absurd hs (by rw [hc]; simp)⟩
    · rw [h1] at h
      obtain ⟨rfl, rfl⟩ : evs = [Ev.setStatus "WORKING"] ∧ e = e1 := by
        constructor
        · exact (congrArg Prod.fst h).symm
        · have := congrArg Prod.snd h
          simpa using this.symm
      exact ⟨worker_iter_of_exc h1, by simp, by simp, fun _ => by simp⟩
    · rw [h1] at h
      obtain ⟨rfl, rfl⟩ : evs = [Ev.setStatus "WORKING", Ev.stopBeat] ∧ e = e1 := by
        constructor
        · exact (congrArg Prod.fst h).symm
        · have := congrArg Prod.snd h
          simpa using this.symm
      exact ⟨worker_iter_of_exc h1, by simp, by simp, fun _ => by simp⟩
    · rw [h1] at h
      obtain ⟨rfl, rfl⟩ : evs = [Ev.setStatus "WORKING", Ev.stopBeat,
          Ev.startBeat BEAT_INTERVAL, Ev.stopBeat] ∧ e = e1 := by
        constructor
        · exact (congrArg Prod.fst h).symm
        · have := congrArg Prod.snd h
          simpa using this.symm
      exact ⟨worker_iter_of_exc h1, by simp, by simp, fun _ => by simp⟩
    · rw [h1] at h
      exact absurd (congrArg Prod.snd h) (by simp)
    · rw [h1] at h
      obtain ⟨rfl, rfl⟩ : evs = [Ev.setStatus "WORKING", Ev.stopBeat,
          Ev.startBeat BEAT_INTERVAL, Ev.attachOutfiles n, Ev.stopBeat] ∧ e = e1 := by
        constructor
        · exact (congrArg Prod.fst h).symm
        · have := congrArg Prod.snd h
          simpa using this.symm
      exact ⟨worker_iter_of_exc h1, by simp, by simp, fun _ => by simp⟩
    · rw [h1] at h
      exact absurd (congrArg Prod.snd h) (by simp)
  · intro js
    rfl
  · intro evs q' e h
    exact fill_iter_of_exc h
  · intro ts
    rfl


/-- C7 witness: concrete escaping exceptions in a worker and in the
intake loop, both logged critical and swallowed. -/
theorem spec_c7_witness :
    worker_iter badO (Except.ok 0) =
      [] ++ [Ev.logCritical ("Unknown error in worker thread: "
        ++ (PyExc.otherError "boom").str)]
    ∧ fill_iter badI [] "t1" =
      ([] ++ [Ev.logCritical ("Unknown exception in listener thread: "
        ++ (PyExc.otherError "io fail").str)], []) :=
  ⟨((spec_c7 badO (Except.ok 0) [] "t1").1 [] (PyExc.otherError "boom")
      (by decide)).1,
    (spec_c7 badI (Except.ok 0) [] "t1").2.2.1 [] [] (PyExc.otherError "io fail")
      (by decide)⟩

theorem qstep_inv {s : QTrace} (h1 : s.q.length ≤ MAXQUEUE)
    (h2 : s.enq = s.deq ++ s.q) (op : QOp) :
    (qstep s op).q.length ≤ MAXQUEUE
    ∧ (qstep s op).enq = (qstep s op).deq ++ (qstep s op).q := by
  cases op with
  | put x =>
    simp only [qstep]
    by_cases hlt : s.q.length < MAXQUEUE
    · rw [if_pos hlt]
      constructor
      · simp only [List.length_append, List.length_singleton]
        omega
      · simp only [h2, List.append_assoc]
    · rw [if_neg hlt]
      exact ⟨h1, h2⟩
  | get =>
    simp only [qstep]
    cases hq : s.q with
    | nil => exact ⟨h1, h2⟩
    | cons x rest =>
      have hlen : s.q.length = rest.length + 1 := by rw [hq]; rfl
      constructor
      · simp only []
        omega
      · simp only []
        rw [h2, hq, List.append_assoc, List.singleton_append]

theorem foldl_qstep_inv (ops : List QOp) (s : QTrace)
    (h1 : s.q.length ≤ MAXQUEUE) (h2 : s.enq = s.deq ++ s.q) :
    (ops.foldl qstep s).q.length ≤ MAXQUEUE
    ∧ (ops.foldl qstep s).enq = (ops.foldl qstep s).deq ++ (ops.foldl qstep s).q := by
  induction ops generalizing s with
  | nil => exact ⟨h1, h2⟩
  | cons op ops ih =>
    rw [List.foldl_cons]
    exact ih _ (qstep_inv h1 h2 op).1 (qstep_inv h1 h2 op).2

theorem fill_iter_admissions (o : TaskOracle) (q : List String) (t : String) :
    List.Sublist ((fill_iter o q t).1.filterMap enqId) [t] := by
  unfold fill_iter fill_iterE
  cases hs : o.statusR "WAITING" with
  | some e => simp [enqId]
  | none =>
    cases hb : o.startBeatR with
    | some e => simp [enqId]
    | none =>
      by_cases hfull : q.length < MAXQUEUE
      · rw [if_pos hfull]
        simp [enqId]
      · rw [if_neg hfull]
        cases hsb : o.stopBeatR with
        | some e => simp [enqId]
        | none =>
          cases her : o.errorR "Compute node overloaded" with
          | some e => simp [enqId]
          | none => simp [enqId]

theorem fill_loop_admissions (o : TaskOracle) (ts : List String) (q : List String) :
    List.Sublist ((fill_loop o q ts).1.filterMap enqId) ts := by
  induction ts generalizing q with
  | nil => simp [fill_loop]
  | cons t ts ih =>
    have hcons : (fill_loop o q (t :: ts)).1 =
        (fill_iter o q t).1 ++ (fill_loop o (fill_iter o q t).2 ts).1 := rfl
    rw [hcons, List.filterMap_append]
    have h1 := fill_iter_admissions o q t
    have h2 := ih (fill_iter o q t).2
    have := List.Sublist.append h1 h2
    simpa using this

/-- C4: the bounded queue has fixed capacity `MAXQUEUE = 5`; starting
from the empty queue, after any interleaving of intake puts and worker
gets at most 5 jobs are enqueued-and-waiting; the admitted history always
equals the dequeued history followed by the still-queued jobs (strict
FIFO); a put on a full queue is rejected with no effect rather than
blocking; and the intake loop admits jobs in emission order (the admitted
uuids form an order-preserving subsequence of the job stream). -/
theorem spec_c4 :
    MAXQUEUE = 5
    ∧ (∀ ops : List QOp, (qrun ops).q.length ≤ MAXQUEUE
        ∧ (qrun ops).enq = (qrun ops).deq ++ (qrun ops).q)
    ∧ (∀ (ops : List QOp) (x : String), MAXQUEUE ≤ (qrun ops).q.length →
        qstep (qrun ops) (QOp.put x) = qrun ops)
    ∧ (∀ (o : TaskOracle) (q ts : List String),
        List.Sublist ((fill_loop o q ts).1.filterMap enqId) ts) := by
  refine ⟨rfl, ?_, ?_, ?_⟩
  · intro ops
    exact foldl_qstep_inv ops ⟨[], [], []⟩ (by simp [MAXQUEUE]) rfl
  · intro ops x hfull
    simp only [qstep]
    rw [if_neg (by omega)]
  · intro o q ts
    exact fill_loop_admissions o ts q

/-- C4 witness: a sixth put on a queue filled by five puts is rejected
unchanged, and a concrete intake run admits in emission order. -/
theorem spec_c4_witness :
    qstep (qrun [QOp.put "a", QOp.put "b", QOp.put "c", QOp.put "d", QOp.put "e"])
        (QOp.put "f") =
      qrun [QOp.put "a", QOp.put "b", QOp.put "c", QOp.put "d", QOp.put "e"]
    ∧ List.Sublist ((fill_loop okOracle [] ["t1", "t2"]).1.filterMap enqId) ["t1", "t2"] :=
  ⟨spec_c4.2.2.1 [QOp.put "a", QOp.put "b", QOp.put "c", QOp.put "d", QOp.put "e"]
      "f" (by decide),
    spec_c4.2.2.2 okOracle [] ["t1", "t2"]⟩
